import Mathlib

/-!
# Calendar application core: shallow embedding and verification

This file embeds the date-projection core of a calendar application
(frontend utilities `dateUtils`, the calendar view-state hook
`useCalendarView`, the event-projection helpers of the month/week/day view
components, and the form-validation utilities) and proves properties of the
embedded functions.

## The JavaScript `Date` model

The source manipulates JavaScript `Date` objects exclusively through local
wall-clock accessors (`getFullYear`, `getMonth`, `getDate`, `getDay`,
`getHours`, ...), mutators (`setDate`, `setMonth`, `setHours`) and the
`new Date(year, month, day, ...)` constructor.  Time zones beyond plain
local wall-clock arithmetic are out of scope, so a `Date` is modelled as an
integer: milliseconds since the epoch 1970-01-01T00:00:00 of the local
clock.  Field extraction and the constructor follow the ECMAScript
`YearFromTime`/`MonthFromTime`/`DateFromTime`/`MakeDay`/`MakeTime`
operations on the proleptic Gregorian calendar; the day-number/civil-date
conversions below implement them with Euclidean-affine arithmetic
(century, then year of century, then month), which agrees with the
ECMAScript definitions on all inputs.

`Int` division `/` and remainder `%` in Lean are Euclidean, which for the
positive literal divisors used throughout coincides with the floor
division/modulo that the ECMAScript operations require.
-/

def msPerSecond : Int := 1000

def msPerMinute : Int := 60000

def msPerHour : Int := 3600000

def msPerDay : Int := 86400000

/-- A calendar date: year, month (1..12) and day of month (1..31). -/
structure CivilDate where
  year : Int
  month : Int
  day : Int
deriving DecidableEq, Repr

/-- Civil date of a day number (days since 1970-01-01) in the proleptic
Gregorian calendar: shift to an era base of 0000-03-01, split the day
number into 400-year eras, centuries, years and a March-first day of year,
then read the month and day off the shifted day of year. -/
def civilFromDays (z : Int) : CivilDate :=
  let zs := z + 719468
  let era := zs / 146097
  let doe := zs - era * 146097
  let c := (4 * doe + 3) / 146097
  let doc := doe - (36524 * c + c / 4)
  let yoc := (4 * doc + 3) / 1461
  let doy := doc - (365 * yoc + yoc / 4)
  let yoe := 100 * c + yoc
  let y := yoe + era * 400
  let mp := (5 * doy + 2) / 153
  let d := doy - (153 * mp + 2) / 5 + 1
  let m := if mp < 10 then mp + 3 else mp - 9
  { year := if m ≤ 2 then y + 1 else y, month := m, day := d }

/-- Day number (days since 1970-01-01) of a civil date with month in 1..12;
the day component may lie outside 1..31, shifting the result linearly. -/
def daysFromCivil (y m d : Int) : Int :=
  let ys := if m ≤ 2 then y - 1 else y
  let era := ys / 400
  let yoe := ys - era * 400
  let doy := (153 * (m + (if 2 < m then -3 else 9)) + 2) / 5 + d - 1
  let doe := yoe * 365 + yoe / 4 - yoe / 100 + doy
  era * 146097 + doe - 719468

/-- ECMAScript `Day(t)`: the day number containing instant `t`. -/
def dayNumber (t : Int) : Int := t / msPerDay

/-- ECMAScript `TimeWithinDay(t)`. -/
def timeWithinDay (t : Int) : Int := t % msPerDay

/-- `Date.prototype.getFullYear` (local time). -/
def jsGetFullYear (t : Int) : Int := (civilFromDays (dayNumber t)).year

/-- `Date.prototype.getMonth` (local time, 0-based: January = 0). -/
def jsGetMonth (t : Int) : Int := (civilFromDays (dayNumber t)).month - 1

/-- `Date.prototype.getDate` (local time, day of month 1..31). -/
def jsGetDate (t : Int) : Int := (civilFromDays (dayNumber t)).day

/-- `Date.prototype.getDay` (local time, 0 = Sunday): 1970-01-01 was a
Thursday, hence the offset 4. -/
def jsGetDay (t : Int) : Int := (dayNumber t + 4) % 7

/-- `Date.prototype.getHours` (local time). -/
def jsGetHours (t : Int) : Int := (t / msPerHour) % 24

/-- `Date.prototype.getMinutes` (local time). -/
def jsGetMinutes (t : Int) : Int := (t / msPerMinute) % 60

/-- `Date.prototype.getSeconds` (local time). -/
def jsGetSeconds (t : Int) : Int := (t / msPerSecond) % 60

/-- `Date.prototype.getMilliseconds` (local time). -/
def jsGetMilliseconds (t : Int) : Int := t % 1000

/-- ECMAScript `MakeDay(y, m, d)` with a 0-based month: the month is
normalised into the year with floor semantics, and the day value shifts the
first of that month linearly (so day 0 is the last day of the previous
month, day 32 overflows into the next month, and so on). -/
def mkDay (y m d : Int) : Int := daysFromCivil (y + m / 12) (m % 12 + 1) 1 + (d - 1)

/-- ECMAScript `MakeTime(hh, mi, ss, ms)`: plain linear arithmetic, out of
range components simply overflow. -/
def mkTime (hh mi ss ms : Int) : Int :=
  hh * msPerHour + mi * msPerMinute + ss * msPerSecond + ms

/-- The `new Date(year, month, day, hours, minutes, seconds, ms)`
constructor (local time): `MakeDate(MakeDay(...), MakeTime(...))`. -/
def mkDate (y m d hh mi ss ms : Int) : Int := mkDay y m d * msPerDay + mkTime hh mi ss ms

/-- `Date.prototype.setHours(hh, mi, ss, ms)`: keep the day, replace the
time within the day. -/
def jsSetHours (t hh mi ss ms : Int) : Int := dayNumber t * msPerDay + mkTime hh mi ss ms

/-- `Date.prototype.setDate(dv)`: `MakeDay` of the date's own year and
month with day value `dv`, keeping the time within the day. -/
def jsSetDate (t dv : Int) : Int :=
  mkDate (jsGetFullYear t) (jsGetMonth t) dv (jsGetHours t) (jsGetMinutes t)
    (jsGetSeconds t) (jsGetMilliseconds t)

/-- `Date.prototype.setMonth(mv)`: `MakeDay` of the date's own year and day
value with month `mv`, keeping the time within the day. -/
def jsSetMonth (t mv : Int) : Int :=
  mkDate (jsGetFullYear t) mv (jsGetDate t) (jsGetHours t) (jsGetMinutes t)
    (jsGetSeconds t) (jsGetMilliseconds t)

/-! ## Correctness of the civil-date conversions -/

/-- Century extraction within a 400-year era is correct. -/
theorem century_level (doe : Int) (h0 : 0 ≤ doe) (h1 : doe ≤ 146096) :
    0 ≤ (4 * doe + 3) / 146097 ∧ (4 * doe + 3) / 146097 ≤ 3 ∧
    0 ≤ doe - (36524 * ((4 * doe + 3) / 146097) + (4 * doe + 3) / 146097 / 4) ∧
    doe - (36524 * ((4 * doe + 3) / 146097) + (4 * doe + 3) / 146097 / 4) ≤ 36524 ∧
    (doe - (36524 * ((4 * doe + 3) / 146097) + (4 * doe + 3) / 146097 / 4) = 36524 →
      (4 * doe + 3) / 146097 = 3) := by
  omega

/-- Year-of-century extraction within a century is correct. -/
theorem yoc_level (doc : Int) (h0 : 0 ≤ doc) (h1 : doc ≤ 36524) :
    0 ≤ (4 * doc + 3) / 1461 ∧ (4 * doc + 3) / 1461 ≤ 99 ∧
    0 ≤ doc - (365 * ((4 * doc + 3) / 1461) + (4 * doc + 3) / 1461 / 4) ∧
    doc - (365 * ((4 * doc + 3) / 1461) + (4 * doc + 3) / 1461 / 4) ≤ 365 ∧
    (doc - (365 * ((4 * doc + 3) / 1461) + (4 * doc + 3) / 1461 / 4) = 365 →
      (4 * doc + 3) / 1461 % 4 = 3) := by
  omega

/-- Month extraction from a March-based day of year is correct and inverts
the month-start formula. -/
theorem month_level (doy : Int) (h0 : 0 ≤ doy) (h1 : doy ≤ 365) :
    (153 * ((if (5 * doy + 2) / 153 < 10 then (5 * doy + 2) / 153 + 3
        else (5 * doy + 2) / 153 - 9) +
      (if 2 < (if (5 * doy + 2) / 153 < 10 then (5 * doy + 2) / 153 + 3
        else (5 * doy + 2) / 153 - 9) then -3 else 9)) + 2) / 5 +
      (doy - (153 * ((5 * doy + 2) / 153) + 2) / 5 + 1) - 1 = doy ∧
    1 ≤ (if (5 * doy + 2) / 153 < 10 then (5 * doy + 2) / 153 + 3
        else (5 * doy + 2) / 153 - 9) ∧
    (if (5 * doy + 2) / 153 < 10 then (5 * doy + 2) / 153 + 3
        else (5 * doy + 2) / 153 - 9) ≤ 12 ∧
    1 ≤ doy - (153 * ((5 * doy + 2) / 153) + 2) / 5 + 1 ∧
    doy - (153 * ((5 * doy + 2) / 153) + 2) / 5 + 1 ≤ 31 ∧
    doy < (153 * ((5 * doy + 2) / 153 + 1) + 2) / 5 := by
  split_ifs <;> omega

/-- Value of `daysFromCivil` for a March-or-later month of year
`400 * era + yoe` of the era, in era coordinates. -/
theorem dfc_eval_high (Y era yoe m d : Int) (hy : Y = 400 * era + yoe)
    (h0 : 0 ≤ yoe) (h1 : yoe ≤ 399) (hm : 3 ≤ m) :
    daysFromCivil Y m d =
      146097 * era + (365 * yoe + yoe / 4 - yoe / 100) + (153 * (m - 3) + 2) / 5
        + d - 1 - 719468 := by
  subst hy
  simp only [daysFromCivil]
  split_ifs <;> omega

/-- Value of `daysFromCivil` for a January or February month, which belongs
to the shifted year `yoe` of the era (its calendar year is one ahead). -/
theorem dfc_eval_low (Y era yoe m d : Int) (hy : Y = 400 * era + yoe + 1)
    (h0 : 0 ≤ yoe) (h1 : yoe ≤ 399) (hm : m ≤ 2) :
    daysFromCivil Y m d =
      146097 * era + (365 * yoe + yoe / 4 - yoe / 100) + (153 * (m + 9) + 2) / 5
        + d - 1 - 719468 := by
  subst hy
  simp only [daysFromCivil]
  split_ifs <;> omega

/-- In a non-final shifted year of an era, the next shifted year starts
strictly after every day of the current one (leap analysis of February). -/
theorem feb_leap_bound (z era c yoc doc doy doe : Int)
    (hz : z = era * 146097 + doe - 719468)
    (h1 : doe - (36524 * c + 0) = doc)
    (h2 : doc - (365 * yoc + yoc / 4) = doy)
    (hc0 : 0 ≤ c) (hc3 : c ≤ 3) (hy0 : 0 ≤ yoc) (hy99 : yoc ≤ 99)
    (hdoy0 : 0 ≤ doy) (hdoy1 : doy ≤ 365)
    (hysharp : doy = 365 → yoc % 4 = 3)
    (hcsharp : doc = 36524 → c = 3)
    (hyend : 100 * c + yoc ≤ 398) :
    z < 146097 * era +
      (365 * (100 * c + yoc + 1) + (25 * c + (yoc + 1) / 4) - (c + (yoc + 1) / 100)) +
      (153 * (3 - 3) + 2) / 5 + 1 - 1 - 719468 := by
  by_cases h365 : doy = 365
  · have hy4 := hysharp h365
    by_cases hy99eq : yoc = 99
    · have := hcsharp (by omega)
      omega
    · omega
  · omega

/-- Every day of the last shifted year of an era lies strictly before the
first day of the next era. -/
theorem feb_era_bound (z era c yoc doc doy doe : Int)
    (hz : z = era * 146097 + doe - 719468)
    (h1 : doe - (36524 * c + 0) = doc)
    (h2 : doc - (365 * yoc + yoc / 4) = doy)
    (hdoe1 : doe ≤ 146096)
    (hdoy1 : doy ≤ 365) :
    z < 146097 * (era + 1) + (365 * 0 + 0 / 4 - 0 / 100) +
      (153 * (3 - 3) + 2) / 5 + 1 - 1 - 719468 := by
  omega

set_option maxHeartbeats 2000000 in
/-- Main correctness bundle for `civilFromDays`: months and days are in
range, `daysFromCivil` inverts it, the day number is not below the first of
its month and is strictly below the first of the following month. -/
theorem civil_spec (z : Int) :
    1 ≤ (civilFromDays z).month ∧ (civilFromDays z).month ≤ 12 ∧
    1 ≤ (civilFromDays z).day ∧ (civilFromDays z).day ≤ 31 ∧
    daysFromCivil (civilFromDays z).year (civilFromDays z).month (civilFromDays z).day = z ∧
    daysFromCivil (civilFromDays z).year (civilFromDays z).month 1 ≤ z ∧
    z < daysFromCivil ((civilFromDays z).year + (civilFromDays z).month / 12)
        ((civilFromDays z).month % 12 + 1) 1 := by
  simp only [civilFromDays]
  generalize hera : (z + 719468) / 146097 = era
  generalize hdoe : z + 719468 - era * 146097 = doe
  generalize hc : (4 * doe + 3) / 146097 = c
  generalize hdoc : doe - (36524 * c + c / 4) = doc
  generalize hyoc : (4 * doc + 3) / 1461 = yoc
  generalize hdoy : doc - (365 * yoc + yoc / 4) = doy
  generalize hmp : (5 * doy + 2) / 153 = mp
  generalize hdd : doy - (153 * mp + 2) / 5 + 1 = dd
  have hdoe0 : 0 ≤ doe := by omega
  have hdoe1 : doe ≤ 146096 := by omega
  have hz : z = era * 146097 + doe - 719468 := by omega
  have hcent := century_level doe hdoe0 hdoe1
  rw [hc] at hcent
  rw [hdoc] at hcent
  obtain ⟨hc0, hc3, hdoc0, hdoc1, hcsharp⟩ := hcent
  have hyl := yoc_level doc hdoc0 hdoc1
  rw [hyoc] at hyl
  rw [hdoy] at hyl
  obtain ⟨hy0, hy99, hdoy0, hdoy1, hysharp⟩ := hyl
  have hml := month_level doy hdoy0 hdoy1
  rw [hmp] at hml
  rw [hdd] at hml
  by_cases hmp10 : mp < 10
  · -- March .. December: the month is mp + 3
    rw [if_pos hmp10]
    rw [if_pos hmp10] at hml
    have hm2 : ¬ (mp + 3 ≤ 2) := by omega
    rw [if_neg hm2]
    rw [if_pos (show 2 < mp + 3 by omega)] at hml
    obtain ⟨hinv, hm1, hm12, hd1, hd31, hnext⟩ := hml
    rw [show mp + 3 + -3 = mp from by ring] at hinv
    have e1 := dfc_eval_high (100 * c + yoc + era * 400) era (100 * c + yoc) (mp + 3) dd
      (by ring) (by omega) (by omega) (by omega)
    have e2 := dfc_eval_high (100 * c + yoc + era * 400) era (100 * c + yoc) (mp + 3) 1
      (by ring) (by omega) (by omega) (by omega)
    rw [show mp + 3 - 3 = mp from by ring] at e1 e2
    rw [e1, e2]
    rw [show (100 * c + yoc) / 4 = 25 * c + yoc / 4 from by omega]
    rw [show (100 * c + yoc) / 100 = c from by omega]
    rw [show c / 4 = 0 from by omega] at hdoc
    clear hera hdoe hc hyoc hmp hdd hcsharp hysharp e1 e2
    refine ⟨by omega, by omega, by omega, by omega, by omega, by omega, ?_⟩
    by_cases h11 : mp + 3 ≤ 11
    · have hq : (mp + 3) / 12 = 0 ∧ (mp + 3) % 12 + 1 = mp + 4 := by omega
      rw [hq.1, hq.2]
      have e3 := dfc_eval_high (100 * c + yoc + era * 400 + 0) era (100 * c + yoc) (mp + 4) 1
        (by ring) (by omega) (by omega) (by omega)
      rw [show mp + 4 - 3 = mp + 1 from by ring] at e3
      rw [e3]
      rw [show (100 * c + yoc) / 4 = 25 * c + yoc / 4 from by omega]
      rw [show (100 * c + yoc) / 100 = c from by omega]
      omega
    · -- December: the next month is January of the following calendar year
      have hq : (mp + 3) / 12 = 1 ∧ (mp + 3) % 12 + 1 = 1 := by omega
      rw [hq.1, hq.2]
      have e3 := dfc_eval_low (100 * c + yoc + era * 400 + 1) era (100 * c + yoc) 1 1
        (by ring) (by omega) (by omega) (by omega)
      rw [e3]
      rw [show (100 * c + yoc) / 4 = 25 * c + yoc / 4 from by omega]
      rw [show (100 * c + yoc) / 100 = c from by omega]
      omega
  · -- January or February: the month is mp - 9
    rw [if_neg hmp10]
    rw [if_neg hmp10] at hml
    have hmple : mp ≤ 11 := by omega
    have hm2 : mp - 9 ≤ 2 := by omega
    rw [if_pos hm2]
    rw [if_neg (show ¬ 2 < mp - 9 by omega)] at hml
    obtain ⟨hinv, hm1, hm12, hd1, hd31, hnext⟩ := hml
    rw [show mp - 9 + 9 = mp from by ring] at hinv
    have e1 := dfc_eval_low (100 * c + yoc + era * 400 + 1) era (100 * c + yoc) (mp - 9) dd
      (by ring) (by omega) (by omega) (by omega)
    have e2 := dfc_eval_low (100 * c + yoc + era * 400 + 1) era (100 * c + yoc) (mp - 9) 1
      (by ring) (by omega) (by omega) (by omega)
    rw [show mp - 9 + 9 = mp from by ring] at e1 e2
    rw [e1, e2]
    rw [show (100 * c + yoc) / 4 = 25 * c + yoc / 4 from by omega]
    rw [show (100 * c + yoc) / 100 = c from by omega]
    rw [show c / 4 = 0 from by omega] at hdoc
    clear hera hdoe hc hyoc hmp hdd e1 e2
    refine ⟨by omega, by omega, by omega, by omega, by omega, by omega, ?_⟩
    have hq : (mp - 9) / 12 = 0 := by omega
    rw [hq]
    by_cases hjan : mp = 10
    · -- January: the next month is February of the same shifted year
      have hq2 : (mp - 9) % 12 + 1 = 2 := by omega
      rw [hq2]
      have e3 := dfc_eval_low (100 * c + yoc + era * 400 + 1 + 0) era (100 * c + yoc) 2 1
        (by ring) (by omega) (by omega) (by omega)
      rw [e3]
      rw [show (100 * c + yoc) / 4 = 25 * c + yoc / 4 from by omega]
      rw [show (100 * c + yoc) / 100 = c from by omega]
      omega
    · -- February: the next month is March, which opens the next shifted year
      have hfeb : mp = 11 := by omega
      have hq2 : (mp - 9) % 12 + 1 = 3 := by omega
      rw [hq2]
      by_cases hyend : 100 * c + yoc ≤ 398
      · have e3 := dfc_eval_high (100 * c + yoc + era * 400 + 1 + 0) era (100 * c + yoc + 1) 3 1
          (by ring) (by omega) (by omega) (by omega)
        rw [e3]
        rw [show (100 * c + yoc + 1) / 4 = 25 * c + (yoc + 1) / 4 from by omega]
        rw [show (100 * c + yoc + 1) / 100 = c + (yoc + 1) / 100 from by omega]
        exact feb_leap_bound z era c yoc doc doy doe hz hdoc hdoy hc0 hc3 hy0 hy99
          hdoy0 hdoy1 hysharp hcsharp hyend
      · -- last year of the era: the next era begins
        have e3 := dfc_eval_high (100 * c + yoc + era * 400 + 1 + 0) (era + 1) 0 3 1
          (by omega) (by omega) (by omega) (by omega)
        rw [e3]
        exact feb_era_bound z era c yoc doc doy doe hz hdoc hdoy hdoe1 hdoy1

/-- `daysFromCivil` is linear in the day component. -/
theorem daysFromCivil_linear (y m d : Int) :
    daysFromCivil y m d = daysFromCivil y m 1 + (d - 1) := by
  simp only [daysFromCivil]
  split_ifs <;> ring

/-- `mkDay` on an in-range month needs no normalisation. -/
theorem mkDay_norm (y m0 d : Int) (h0 : 0 ≤ m0) (h1 : m0 ≤ 11) :
    mkDay y m0 d = daysFromCivil y (m0 + 1) 1 + (d - 1) := by
  simp only [mkDay]
  rw [show y + m0 / 12 = y from by omega, show m0 % 12 + 1 = m0 + 1 from by omega]

/-- `mkDay` is linear in the day component. -/
theorem mkDay_linear (y m d e : Int) : mkDay y m d = mkDay y m e + (d - e) := by
  simp only [mkDay]
  ring

/-- The time accessors recompose to the time within the day. -/
theorem mkTime_decomp (t : Int) :
    mkTime (jsGetHours t) (jsGetMinutes t) (jsGetSeconds t) (jsGetMilliseconds t)
      = timeWithinDay t := by
  simp only [mkTime, jsGetHours, jsGetMinutes, jsGetSeconds, jsGetMilliseconds,
    timeWithinDay, msPerHour, msPerMinute, msPerSecond, msPerDay]
  omega

/-- Rebuilding a date from all its own accessors gives the date back. -/
theorem js_roundtrip (t : Int) :
    mkDate (jsGetFullYear t) (jsGetMonth t) (jsGetDate t) (jsGetHours t) (jsGetMinutes t)
      (jsGetSeconds t) (jsGetMilliseconds t) = t := by
  obtain ⟨hm1, hm12, hd1, hd31, hrt, hstart, hnext⟩ := civil_spec (dayNumber t)
  simp only [mkDate, jsGetFullYear, jsGetMonth, jsGetDate]
  rw [mkDay_norm _ _ _ (by omega) (by omega)]
  rw [show (civilFromDays (dayNumber t)).month - 1 + 1 = (civilFromDays (dayNumber t)).month
    from by ring]
  rw [← daysFromCivil_linear, hrt, mkTime_decomp]
  simp only [dayNumber, timeWithinDay, msPerDay]
  omega

/-- `setDate` shifts the date by whole days relative to the current day of
month. -/
theorem jsSetDate_eq (t dv : Int) : jsSetDate t dv = t + (dv - jsGetDate t) * msPerDay := by
  simp only [jsSetDate, mkDate]
  rw [mkDay_linear _ _ dv (jsGetDate t)]
  have h := js_roundtrip t
  simp only [mkDate] at h
  linear_combination h

/-- `setDate` relative to the current day of month is a plain shift by
days. -/
theorem jsSetDate_self_add (t k : Int) : jsSetDate t (jsGetDate t + k) = t + k * msPerDay := by
  rw [jsSetDate_eq]
  ring

/-- `setHours` to midnight truncates to the start of the day. -/
theorem jsSetHours_midnight (t : Int) : jsSetHours t 0 0 0 0 = dayNumber t * msPerDay := by
  simp only [jsSetHours, mkTime]
  ring

/-- Shifting by whole days shifts the day number. -/
theorem dayNumber_add_days (t k : Int) : dayNumber (t + k * msPerDay) = dayNumber t + k := by
  simp only [dayNumber, msPerDay]
  omega

/-- The day number of a midnight instant. -/
theorem dayNumber_of_mul (k : Int) : dayNumber (k * msPerDay) = k := by
  simp only [dayNumber, msPerDay]
  omega

/-! ## dateUtils (embedding of the date utility module) -/

/-- `getMonthStart`: `new Date(date.getFullYear(), date.getMonth(), 1)`. -/
def getMonthStart (t : Int) : Int := mkDate (jsGetFullYear t) (jsGetMonth t) 1 0 0 0 0

/-- `getMonthEnd`: `new Date(date.getFullYear(), date.getMonth() + 1, 0)`. -/
def getMonthEnd (t : Int) : Int := mkDate (jsGetFullYear t) (jsGetMonth t + 1) 0 0 0 0 0

/-- `getWeekStart`: Monday-first week start; Sunday (`getDay() = 0`) goes
back 6 days, otherwise back `day - 1` days, then the time is cleared. -/
def getWeekStart (t : Int) : Int :=
  let day := jsGetDay t
  let diff := if day = 0 then -6 else 1 - day
  jsSetHours (jsSetDate t (jsGetDate t + diff)) 0 0 0 0

/-- `getWeekEnd`: week start plus six days, time set to 23:59:59.999. -/
def getWeekEnd (t : Int) : Int :=
  let start := getWeekStart t
  jsSetHours (jsSetDate start (jsGetDate start + 6)) 23 59 59 999

/-- `getToday`: the current instant with the time cleared; the current
instant is a parameter of the model. -/
def getToday (now : Int) : Int := jsSetHours now 0 0 0 0

/-- `isSameDay`: `toDateString()` equality, which holds exactly when the
two instants share year, month and day of month in local time. -/
def isSameDay (a b : Int) : Bool := civilFromDays (dayNumber a) = civilFromDays (dayNumber b)

/-- `isToday`: same calendar day as the current instant (a parameter). -/
def isToday (t now : Int) : Bool := isSameDay t now

/-- The date-collecting loop of `generateCalendarDates`: push the current
date and advance one day while not past the end date. -/
def collectDates (endDate current : Int) : List Int :=
  if h : current ≤ endDate then
    current :: collectDates endDate (jsSetDate current (jsGetDate current + 1))
  else []
termination_by (endDate + 1 - current).toNat
decreasing_by
  rw [jsSetDate_self_add]
  simp only [msPerDay]
  omega

/-- `generateCalendarDates`: all dates from the Monday of the week of the
first of the month through the Sunday of the week of its last day. -/
def generateCalendarDates (year month : Int) : List Int :=
  let firstDay := mkDate year month 1 0 0 0 0
  let lastDay := mkDate year (month + 1) 0 0 0 0 0
  let startDate := getWeekStart firstDay
  let endDate := getWeekEnd lastDay
  collectDates endDate startDate

/-- Closed form of `getWeekStart`: a Monday midnight at most six days back. -/
theorem getWeekStart_eq (t : Int) :
    getWeekStart t = (dayNumber t +
      (if (dayNumber t + 4) % 7 = 0 then -6 else 1 - (dayNumber t + 4) % 7)) * msPerDay := by
  simp only [getWeekStart, jsGetDay, jsSetDate_self_add, jsSetHours_midnight, dayNumber_add_days]

/-- Closed form of `getWeekEnd`. -/
theorem getWeekEnd_eq (t : Int) :
    getWeekEnd t = (dayNumber t +
      (if (dayNumber t + 4) % 7 = 0 then -6 else 1 - (dayNumber t + 4) % 7) + 6) * msPerDay
      + 86399999 := by
  simp only [getWeekEnd, getWeekStart_eq, jsSetDate_self_add, jsSetHours_midnight,
    dayNumber_add_days, dayNumber_of_mul, jsSetHours]
  simp only [mkTime, msPerHour, msPerMinute, msPerSecond]
  ring

/-! ## useCalendarView (embedding of the calendar view-state hook) -/

/-- The three calendar display modes. -/
inductive CalendarViewMode where
  | month
  | week
  | day
deriving DecidableEq, Repr

/-- The mutable state of the hook: current anchor date and view mode. -/
structure CalendarViewState where
  currentDate : Int
  viewMode : CalendarViewMode
deriving DecidableEq, Repr

/-- `goToDate`: set the anchor date, keep the mode. -/
def goToDate (d : Int) (s : CalendarViewState) : CalendarViewState :=
  { s with currentDate := d }

/-- `goToToday`: set the anchor to today's midnight. -/
def goToToday (now : Int) (s : CalendarViewState) : CalendarViewState :=
  { s with currentDate := getToday now }

/-- `goToPrevious`: one month, seven days or one day back depending on the
mode, via `setMonth`/`setDate`. -/
def goToPrevious (s : CalendarViewState) : CalendarViewState :=
  { s with currentDate :=
      match s.viewMode with
      | CalendarViewMode.month => jsSetMonth s.currentDate (jsGetMonth s.currentDate - 1)
      | CalendarViewMode.week => jsSetDate s.currentDate (jsGetDate s.currentDate - 7)
      | CalendarViewMode.day => jsSetDate s.currentDate (jsGetDate s.currentDate - 1) }

/-- `goToNext`: one month, seven days or one day forward depending on the
mode, via `setMonth`/`setDate`. -/
def goToNext (s : CalendarViewState) : CalendarViewState :=
  { s with currentDate :=
      match s.viewMode with
      | CalendarViewMode.month => jsSetMonth s.currentDate (jsGetMonth s.currentDate + 1)
      | CalendarViewMode.week => jsSetDate s.currentDate (jsGetDate s.currentDate + 7)
      | CalendarViewMode.day => jsSetDate s.currentDate (jsGetDate s.currentDate + 1) }

/-- `changeViewMode`: set the mode, keep the anchor date. -/
def changeViewMode (m : CalendarViewMode) (s : CalendarViewState) : CalendarViewState :=
  { s with viewMode := m }

/-- `getPeriodStart`: month start, week start, or the day's midnight. -/
def getPeriodStart (s : CalendarViewState) : Int :=
  match s.viewMode with
  | CalendarViewMode.month => getMonthStart s.currentDate
  | CalendarViewMode.week => getWeekStart s.currentDate
  | CalendarViewMode.day => jsSetHours s.currentDate 0 0 0 0

/-- `getPeriodEnd`: month end, week end, or the day's 23:59:59.999. -/
def getPeriodEnd (s : CalendarViewState) : Int :=
  match s.viewMode with
  | CalendarViewMode.month => getMonthEnd s.currentDate
  | CalendarViewMode.week => getWeekEnd s.currentDate
  | CalendarViewMode.day => jsSetHours s.currentDate 23 59 59 999

/-- The five transitions the hook exposes. -/
inductive CalendarTransition where
  | goToDate (d : Int)
  | goToToday
  | goToPrevious
  | goToNext
  | changeViewMode (m : CalendarViewMode)
deriving DecidableEq, Repr

/-- Apply a transition to a view state (the current instant `now` is a
parameter used by `goToToday`). -/
def applyTransition (now : Int) : CalendarTransition → CalendarViewState → CalendarViewState
  | CalendarTransition.goToDate d, s => goToDate d s
  | CalendarTransition.goToToday, s => goToToday now s
  | CalendarTransition.goToPrevious, s => goToPrevious s
  | CalendarTransition.goToNext, s => goToNext s
  | CalendarTransition.changeViewMode m, s => changeViewMode m s

/-! ## Event type and projection helpers of the view components -/

/-- The frontend `CalendarEvent` record; `Date` fields are model instants. -/
structure CalendarEvent where
  id : Int
  title : String
  description : Option String
  startDateTime : Int
  endDateTime : Int
  location : Option String
  category : Option String
  color : Option String
  createdAt : Int
  updatedAt : Int
  isDeleted : Bool
deriving DecidableEq, Repr

namespace MonthView

/-- `getEventsForDate` of the month view component: filter the events whose
start falls on the given calendar day (no sorting in this component). -/
def getEventsForDate (events : List CalendarEvent) (date : Int) : List CalendarEvent :=
  events.filter (fun event => isSameDay event.startDateTime date)

end MonthView

namespace WeekView

/-- `getEventsForDate` of the week view component: filter the events whose
start falls on the given calendar day and sort ascending by start time (the
comparator subtracts the start instants; the host sort is stable, modelled
with insertion sort). -/
def getEventsForDate (events : List CalendarEvent) (date : Int) : List CalendarEvent :=
  (events.filter (fun event => isSameDay event.startDateTime date)).insertionSort
    (fun a b => a.startDateTime ≤ b.startDateTime)

end WeekView

namespace DayView

/-- The `dayEvents` list of the day view component: the current day's
events sorted ascending by start time. -/
def dayEvents (events : List CalendarEvent) (currentDate : Int) : List CalendarEvent :=
  (events.filter (fun event => isSameDay event.startDateTime currentDate)).insertionSort
    (fun a b => a.startDateTime ≤ b.startDateTime)

/-- `getEventsForHour`: events of the day whose local start hour is at most
`hour` and whose local end hour is at least `hour` (inclusive both ends). -/
def getEventsForHour (events : List CalendarEvent) (currentDate hour : Int) :
    List CalendarEvent :=
  (dayEvents events currentDate).filter (fun event =>
    jsGetHours event.startDateTime ≤ hour && hour ≤ jsGetHours event.endDateTime)

end DayView

/-! ## Validation utilities (embedding of the form-validation module)

Payload date fields have type `Date | string` in the source and are passed
through `new Date(...)`, which either yields a valid instant or `NaN`; the
parse result is modelled as `Option Int` (`none` is an invalid date). -/

/-- The host `trim`: drop leading and trailing whitespace. -/
def trimString (s : String) : String :=
  String.mk (((s.data.dropWhile Char.isWhitespace).reverse.dropWhile Char.isWhitespace).reverse)

/-- `required`: empty or blank-after-trim values are rejected (an empty
string is falsy in the host language, and it also trims to the empty
string, so the trim test captures both disjuncts). -/
def required (value : String) (fieldName : String) : Option String :=
  if trimString value = "" then some (fieldName ++ "は必須です") else none

/-- `maxLength`: truthy values longer than `max` are rejected. -/
def maxLength (value : String) (max : Nat) (fieldName : String) : Option String :=
  if value ≠ "" ∧ value.length > max then
    some (fieldName ++ "は" ++ toString max ++ "文字以内で入力してください")
  else none

/-- `isValidDate`: the parsed date must be a valid instant. -/
def isValidDate (date : Option Int) (fieldName : String) : Option String :=
  match date with
  | none => some (fieldName ++ "には有効な日付を入力してください")
  | some _ => none

/-- `validateDateRange`: both ends must be valid instants and the start
must be strictly before the end. -/
def validateDateRange (startDate endDate : Option Int) : Option String :=
  match startDate, endDate with
  | some s, some e =>
    if s ≥ e then some "終了日時は開始日時より後に設定してください" else none
  | _, _ => some "開始日時と終了日時には有効な日付を入力してください"

/-- `validateEventTitle`: required, then at most 200 characters. -/
def validateEventTitle (title : String) : Option String :=
  match required title "タイトル" with
  | some e => some e
  | none =>
    match maxLength title 200 "タイトル" with
    | some e => some e
    | none => none

/-- `validateEventDescription`: optional, at most 1000 characters. -/
def validateEventDescription (description : Option String) : Option String :=
  match description with
  | none => none
  | some d => maxLength d 1000 "説明"

/-- `validateEventLocation`: optional, at most 200 characters. -/
def validateEventLocation (location : Option String) : Option String :=
  match location with
  | none => none
  | some l => maxLength l 200 "場所"

/-- `validateEventCategory`: optional (absent or falsy empty string is
skipped), otherwise must belong to the fixed category list. -/
def validateEventCategory (category : Option String) : Option String :=
  match category with
  | none => none
  | some c =>
    if c = "" then none
    else if c ∈ ["会議", "タスク", "研修", "イベント", "個人", "休日"] then none
    else some "有効なカテゴリを選択してください"

/-- One character of a hexadecimal color code. -/
def isHexDigitChar (ch : Char) : Bool :=
  (decide ('0' ≤ ch) && decide (ch ≤ '9')) ||
  (decide ('A' ≤ ch) && decide (ch ≤ 'F')) ||
  (decide ('a' ≤ ch) && decide (ch ≤ 'f'))

/-- The color pattern: `#` followed by exactly six or exactly three
hexadecimal digits. -/
def colorPatternTest (c : String) : Bool :=
  match c.data with
  | '#' :: rest => (rest.length = 6 || rest.length = 3) && rest.all isHexDigitChar
  | _ => false

/-- `validateColor`: optional (absent or falsy empty string is skipped),
otherwise must match the hex color pattern. -/
def validateColor (color : Option String) : Option String :=
  match color with
  | none => none
  | some c =>
    if c = "" then none
    else if colorPatternTest c then none
    else some "有効なカラーコード（#RRGGBB形式）を入力してください"

/-- The error map: at most one message per field, absent key means valid. -/
structure FormValidationErrors where
  title : Option String := none
  description : Option String := none
  startDateTime : Option String := none
  endDateTime : Option String := none
  location : Option String := none
  category : Option String := none
  color : Option String := none
deriving DecidableEq, Repr

/-- The create/update form payload handed to `validateEventForm`. -/
structure EventFormData where
  title : String
  description : Option String := none
  startDateTime : Option Int
  endDateTime : Option Int
  location : Option String := none
  category : Option String := none
  color : Option String := none
deriving DecidableEq, Repr

/-- `validateEventForm`: validate every field and collect all errors; the
`endDateTime` key carries the parse error if the end does not parse,
otherwise the date-range error if the order check fails. -/
def validateEventForm (data : EventFormData) : FormValidationErrors :=
  { title := validateEventTitle data.title
    description := validateEventDescription data.description
    startDateTime := isValidDate data.startDateTime "開始日時"
    endDateTime :=
      match isValidDate data.endDateTime "終了日時" with
      | some e => some e
      | none => validateDateRange data.startDateTime data.endDateTime
    location := validateEventLocation data.location
    category := validateEventCategory data.category
    color := validateColor data.color }

/-- `hasValidationErrors`: some field carries a message. -/
def hasValidationErrors (errors : FormValidationErrors) : Bool :=
  errors.title.isSome || errors.description.isSome || errors.startDateTime.isSome ||
  errors.endDateTime.isSome || errors.location.isSome || errors.category.isSome ||
  errors.color.isSome

/-! ## Claims -/

/-- C8: `weekStart` is idempotent: applying `getWeekStart` to its own
result returns the same instant, for every date. -/
theorem weekStart_idempotent (t : Int) : getWeekStart (getWeekStart t) = getWeekStart t := by
  rw [getWeekStart_eq t, getWeekStart_eq, dayNumber_of_mul]
  split_ifs <;> (simp only [msPerDay] ; omega)

/-- C2: from mode Month anchored on 2024-01-31, `goToNext` uses
`setMonth(getMonth() + 1)`, which lands on 2024-03-02 (month index 2,
March) because February 2024 has only 29 days — the anchor skips to March,
the day-31 overflow spilling past February. -/
theorem goToNext_month_overflow :
    goToNext ⟨mkDate 2024 0 31 0 0 0 0, CalendarViewMode.month⟩
      = ⟨mkDate 2024 2 2 0 0 0 0, CalendarViewMode.month⟩ ∧
    jsGetMonth (goToNext ⟨mkDate 2024 0 31 0 0 0 0, CalendarViewMode.month⟩).currentDate = 2 ∧
    jsGetFullYear (goToNext ⟨mkDate 2024 0 31 0 0 0 0,
      CalendarViewMode.month⟩).currentDate = 2024 := by
  decide

/-- C9: on a payload with an empty title and equal, valid start and end
instants, `validateEventForm` reports both the required-title error and the
end-strictly-after-start error in the same call. -/
theorem validateEventForm_empty_title_equal_times (t : Int) :
    (validateEventForm ⟨"", none, some t, some t, none, none, none⟩).title
      = some "タイトルは必須です" ∧
    (validateEventForm ⟨"", none, some t, some t, none, none, none⟩).endDateTime
      = some "終了日時は開始日時より後に設定してください" := by
  constructor
  · simp only [validateEventForm]
    decide
  · simp only [validateEventForm, isValidDate, validateDateRange]
    rw [if_pos (le_refl t)]

/-- C10: `validateEventForm` stores at most one message per field by
construction (each key of the error record holds one optional message);
when the end date does not parse, the `endDateTime` key carries exactly the
parse error and the end-after-start ordering check is skipped (the parse
message differs from the ordering message). -/
theorem validateEventForm_end_parse_error (data : EventFormData)
    (h : data.endDateTime = none) :
    (validateEventForm data).endDateTime = some "終了日時には有効な日付を入力してください" ∧
    some "終了日時には有効な日付を入力してください"
      ≠ some "終了日時は開始日時より後に設定してください" := by
  refine ⟨?_, by decide⟩
  simp only [validateEventForm, isValidDate, h]
  decide

/-- Witness for C10 at a concrete payload with an unparseable end date. -/
theorem validateEventForm_end_parse_error_witness :
    (⟨"会議", none, some 0, none, none, none, none⟩ : EventFormData).endDateTime = none ∧
    (validateEventForm ⟨"会議", none, some 0, none, none, none, none⟩).endDateTime
      = some "終了日時には有効な日付を入力してください" :=
  ⟨rfl, (validateEventForm_end_parse_error ⟨"会議", none, some 0, none, none, none, none⟩ rfl).1⟩

/-- A deleted event on 2024-01-15 (sample input). -/
def deletedSampleEvent : CalendarEvent :=
  ⟨1, "削除済みの予定", none, mkDate 2024 0 15 9 0 0 0, mkDate 2024 0 15 10 0 0 0,
    none, none, none, 0, 0, true⟩

/-- Counterexample to C1 as stated: `getEventsForDate` performs no
`isDeleted` filtering, so a deleted event whose start falls on the queried
day is returned. -/
theorem getEventsForDate_returns_deleted :
    deletedSampleEvent ∈ MonthView.getEventsForDate [deletedSampleEvent]
      (mkDate 2024 0 15 0 0 0 0) ∧
    deletedSampleEvent.isDeleted = true := by
  refine ⟨?_, rfl⟩
  simp only [MonthView.getEventsForDate, List.mem_filter]
  exact ⟨List.mem_singleton_self _, by decide⟩

/-- C1 (amended): every event returned by `getEventsForDate` (both the
month-view and the week-view implementation) starts on the queried
calendar day; the functions themselves do not filter on `isDeleted`, but
they introduce no deleted events: whenever the input list contains only
non-deleted events, so does the output. -/
theorem eventsForDate_same_day_and_no_new_deleted (events : List CalendarEvent) (date : Int) :
    (∀ e ∈ MonthView.getEventsForDate events date, isSameDay e.startDateTime date = true) ∧
    (∀ e ∈ WeekView.getEventsForDate events date, isSameDay e.startDateTime date = true) ∧
    ((∀ e ∈ events, e.isDeleted = false) →
      ∀ e ∈ MonthView.getEventsForDate events date, e.isDeleted = false) ∧
    ((∀ e ∈ events, e.isDeleted = false) →
      ∀ e ∈ WeekView.getEventsForDate events date, e.isDeleted = false) := by
  have hweek : ∀ e : CalendarEvent, e ∈ WeekView.getEventsForDate events date ↔
      e ∈ events.filter (fun ev => isSameDay ev.startDateTime date) := by
    intro e
    exact (List.perm_insertionSort _ _).mem_iff
  refine ⟨?_, ?_, ?_, ?_⟩
  · intro e he
    exact (List.mem_filter.mp he).2
  · intro e he
    exact (List.mem_filter.mp ((hweek e).mp he)).2
  · intro hall e he
    exact hall e (List.mem_filter.mp he).1
  · intro hall e he
    exact hall e (List.mem_filter.mp ((hweek e).mp he)).1

/-- Witness for C1 (amended) at a concrete one-event input. -/
theorem eventsForDate_same_day_and_no_new_deleted_witness :
    (∀ e ∈ [(⟨2, "打ち合わせ", none, mkDate 2024 0 15 9 0 0 0, mkDate 2024 0 15 10 0 0 0,
        none, none, none, 0, 0, false⟩ : CalendarEvent)], e.isDeleted = false) ∧
    (∀ e ∈ MonthView.getEventsForDate
        [(⟨2, "打ち合わせ", none, mkDate 2024 0 15 9 0 0 0, mkDate 2024 0 15 10 0 0 0,
          none, none, none, 0, 0, false⟩ : CalendarEvent)] (mkDate 2024 0 15 0 0 0 0),
      e.isDeleted = false) := by
  have h := eventsForDate_same_day_and_no_new_deleted
    [(⟨2, "打ち合わせ", none, mkDate 2024 0 15 9 0 0 0, mkDate 2024 0 15 10 0 0 0,
      none, none, none, 0, 0, false⟩ : CalendarEvent)] (mkDate 2024 0 15 0 0 0 0)
  exact ⟨by decide, h.2.2.1 (by decide)⟩

/-- A later-starting event on 2024-01-15 (sample input). -/
def laterSampleEvent : CalendarEvent :=
  ⟨3, "午後の予定", none, mkDate 2024 0 15 10 0 0 0, mkDate 2024 0 15 11 0 0 0,
    none, none, none, 0, 0, false⟩

/-- An earlier-starting event on 2024-01-15 (sample input). -/
def earlierSampleEvent : CalendarEvent :=
  ⟨4, "朝の予定", none, mkDate 2024 0 15 9 0 0 0, mkDate 2024 0 15 9 30 0 0,
    none, none, none, 0, 0, false⟩

/-- Counterexample to C5 as stated: the month-view `getEventsForDate` only
filters and keeps the input order, so an input listing a later event first
yields an output not sorted ascending by start time. -/
theorem getEventsForDate_not_sorted :
    MonthView.getEventsForDate [laterSampleEvent, earlierSampleEvent]
        (mkDate 2024 0 15 0 0 0 0) = [laterSampleEvent, earlierSampleEvent] ∧
    ¬ List.Pairwise (fun a b : CalendarEvent => a.startDateTime ≤ b.startDateTime)
        (MonthView.getEventsForDate [laterSampleEvent, earlierSampleEvent]
          (mkDate 2024 0 15 0 0 0 0)) := by
  constructor
  · decide
  · decide

/-- C5 (amended): the week-view `getEventsForDate` returns a list sorted
ascending by `startDateTime`; the month-view implementation does not sort —
it preserves input order, so its output is sorted whenever its input is. -/
theorem eventsForDate_sorted_amended (events : List CalendarEvent) (date : Int) :
    List.Pairwise (fun a b : CalendarEvent => a.startDateTime ≤ b.startDateTime)
      (WeekView.getEventsForDate events date) ∧
    (List.Pairwise (fun a b : CalendarEvent => a.startDateTime ≤ b.startDateTime) events →
      List.Pairwise (fun a b : CalendarEvent => a.startDateTime ≤ b.startDateTime)
        (MonthView.getEventsForDate events date)) := by
  constructor
  · haveI h1 : IsTotal CalendarEvent (fun a b => a.startDateTime ≤ b.startDateTime) :=
      ⟨fun a b => Int.le_total _ _⟩
    haveI h2 : IsTrans CalendarEvent (fun a b => a.startDateTime ≤ b.startDateTime) :=
      ⟨fun a b c hab hbc => Int.le_trans hab hbc⟩
    exact List.sorted_insertionSort _ _
  · intro hp
    exact hp.filter _

/-- Witness for C5 (amended) at a concrete already-sorted input. -/
theorem eventsForDate_sorted_amended_witness :
    List.Pairwise (fun a b : CalendarEvent => a.startDateTime ≤ b.startDateTime)
      [earlierSampleEvent, laterSampleEvent] ∧
    List.Pairwise (fun a b : CalendarEvent => a.startDateTime ≤ b.startDateTime)
      (MonthView.getEventsForDate [earlierSampleEvent, laterSampleEvent]
        (mkDate 2024 0 15 0 0 0 0)) := by
  have h := eventsForDate_sorted_amended [earlierSampleEvent, laterSampleEvent]
    (mkDate 2024 0 15 0 0 0 0)
  exact ⟨by decide, h.2 (by decide)⟩

/-- A malformed event on 2024-01-15: it ends (10:00) before it starts
(10:30). -/
def malformedSampleEvent : CalendarEvent :=
  ⟨5, "不正な予定", none, mkDate 2024 0 15 10 30 0 0, mkDate 2024 0 15 10 0 0 0,
    none, none, none, 0, 0, false⟩

/-- Counterexample to C4 as stated: an event with
`endDateTime <= startDateTime` is not excluded from hour bucketing — when
its start and end fall in the same local hour, `getEventsForHour` still
returns it for that hour slot. -/
theorem getEventsForHour_returns_malformed :
    malformedSampleEvent.endDateTime ≤ malformedSampleEvent.startDateTime ∧
    malformedSampleEvent ∈ DayView.getEventsForHour [malformedSampleEvent]
      (mkDate 2024 0 15 0 0 0 0) 10 := by
  constructor
  · decide
  · decide

/-- C4 (amended): hour bucketing applies no malformed-input filter; it
tests only the local hour components, so an event with
`endDateTime <= startDateTime` is returned for hour `h` exactly when
`startHour <= h <= endHour`, and it is excluded from every hour slot
precisely when its end hour is strictly below its start hour (projection
itself is total and never throws). -/
theorem eventsForHour_malformed_amended (events : List CalendarEvent) (date hour : Int)
    (e : CalendarEvent) :
    (e ∈ DayView.getEventsForHour events date hour ↔
      e ∈ DayView.dayEvents events date ∧
        jsGetHours e.startDateTime ≤ hour ∧ hour ≤ jsGetHours e.endDateTime) ∧
    (jsGetHours e.endDateTime < jsGetHours e.startDateTime →
      e ∉ DayView.getEventsForHour events date hour) := by
  constructor
  · simp only [DayView.getEventsForHour, List.mem_filter, Bool.and_eq_true, decide_eq_true_eq]
  · intro hlt hmem
    simp only [DayView.getEventsForHour, List.mem_filter, Bool.and_eq_true,
      decide_eq_true_eq] at hmem
    omega

/-- Witness for C4 (amended) at a concrete input: an event ending in an
earlier hour than it starts occupies no slot. -/
theorem eventsForHour_malformed_amended_witness :
    jsGetHours (mkDate 2024 0 15 9 0 0 0) < jsGetHours (mkDate 2024 0 15 10 30 0 0) ∧
    (⟨6, "不正", none, mkDate 2024 0 15 10 30 0 0, mkDate 2024 0 15 9 0 0 0,
        none, none, none, 0, 0, false⟩ : CalendarEvent) ∉
      DayView.getEventsForHour
        [(⟨6, "不正", none, mkDate 2024 0 15 10 30 0 0, mkDate 2024 0 15 9 0 0 0,
          none, none, none, 0, 0, false⟩ : CalendarEvent)]
        (mkDate 2024 0 15 0 0 0 0) 10 := by
  have h := eventsForHour_malformed_amended
    [(⟨6, "不正", none, mkDate 2024 0 15 10 30 0 0, mkDate 2024 0 15 9 0 0 0,
      none, none, none, 0, 0, false⟩ : CalendarEvent)]
    (mkDate 2024 0 15 0 0 0 0) 10
    (⟨6, "不正", none, mkDate 2024 0 15 10 30 0 0, mkDate 2024 0 15 9 0 0 0,
      none, none, none, 0, 0, false⟩ : CalendarEvent)
  exact ⟨by decide, h.2 (by decide)⟩

/-- An event from 10:00 to 10:30 on 2024-01-15 (sample input). -/
def shortSampleEvent : CalendarEvent :=
  ⟨7, "短い予定", none, mkDate 2024 0 15 10 0 0 0, mkDate 2024 0 15 10 30 0 0,
    none, none, none, 0, 0, false⟩

/-- An event from 10:00 to 11:05 on 2024-01-15 (sample input). -/
def spanningSampleEvent : CalendarEvent :=
  ⟨8, "またがる予定", none, mkDate 2024 0 15 10 0 0 0, mkDate 2024 0 15 11 5 0 0,
    none, none, none, 0, 0, false⟩

/-- C7: membership in an hour slot is exactly the inclusive-both-ends test
`startHour <= h <= endHour` on the local hour components of an event of the
viewed day; in particular a 10:00–10:30 event occupies only slot 10 and a
10:00–11:05 event occupies exactly slots 10 and 11. -/
theorem eventsForHour_inclusive_hours (events : List CalendarEvent) (date hour : Int)
    (e : CalendarEvent) :
    (e ∈ DayView.getEventsForHour events date hour ↔
      e ∈ DayView.dayEvents events date ∧
        jsGetHours e.startDateTime ≤ hour ∧ hour ≤ jsGetHours e.endDateTime) ∧
    (List.range 24).filter
        (fun h => decide (shortSampleEvent ∈ DayView.getEventsForHour [shortSampleEvent]
          (mkDate 2024 0 15 0 0 0 0) (Int.ofNat h))) = [10] ∧
    (List.range 24).filter
        (fun h => decide (spanningSampleEvent ∈ DayView.getEventsForHour [spanningSampleEvent]
          (mkDate 2024 0 15 0 0 0 0) (Int.ofNat h))) = [10, 11] := by
  refine ⟨?_, by decide, by decide⟩
  simp only [DayView.getEventsForHour, List.mem_filter, Bool.and_eq_true, decide_eq_true_eq]

/-- Witness for C7 at a concrete input: the 10:00–10:30 event is in
slot 10. -/
theorem eventsForHour_inclusive_hours_witness :
    shortSampleEvent ∈ DayView.getEventsForHour [shortSampleEvent]
      (mkDate 2024 0 15 0 0 0 0) 10 := by
  have h := eventsForHour_inclusive_hours [shortSampleEvent] (mkDate 2024 0 15 0 0 0 0) 10
    shortSampleEvent
  exact h.1.mpr (by decide)

/-- Every instant lies in the day spanned by its day number. -/
theorem dayNumber_decomp (t : Int) :
    dayNumber t * msPerDay ≤ t ∧ t < dayNumber t * msPerDay + msPerDay := by
  simp only [dayNumber, msPerDay]
  omega

/-- The amended period invariant holds of every view state: the period
start is never after the anchor; the anchor's calendar day is never after
the period end's; and in Week and Day modes the anchor instant itself is
within the period. -/
theorem viewstate_invariant_all (s : CalendarViewState) :
    getPeriodStart s ≤ s.currentDate ∧
    dayNumber s.currentDate ≤ dayNumber (getPeriodEnd s) ∧
    (s.viewMode = CalendarViewMode.week ∨ s.viewMode = CalendarViewMode.day →
      s.currentDate ≤ getPeriodEnd s) := by
  obtain ⟨t, mode⟩ := s
  obtain ⟨hT1, hT2⟩ := dayNumber_decomp t
  cases mode with
  | month =>
    obtain ⟨hm1, hm12, hd1, hd31, hrt, hstart, hnext⟩ := civil_spec (dayNumber t)
    refine ⟨?_, ?_, ?_⟩
    · show getMonthStart t ≤ t
      simp only [getMonthStart, mkDate, jsGetFullYear, jsGetMonth, jsGetDate]
      rw [mkDay_norm _ _ _ (by omega) (by omega)]
      rw [show (civilFromDays (dayNumber t)).month - 1 + 1 = (civilFromDays (dayNumber t)).month
        from by ring]
      simp only [mkTime, msPerDay, msPerHour, msPerMinute, msPerSecond] at *
      omega
    · show dayNumber t ≤ dayNumber (getMonthEnd t)
      simp only [getMonthEnd, mkDate, jsGetFullYear, jsGetMonth, jsGetDate, mkDay]
      rw [show (civilFromDays (dayNumber t)).month - 1 + 1 = (civilFromDays (dayNumber t)).month
        from by ring]
      simp only [mkTime, dayNumber, msPerDay, msPerHour, msPerMinute, msPerSecond] at *
      omega
    · rintro (h | h) <;> simp at h
  | week =>
    rw [show (⟨t, CalendarViewMode.week⟩ : CalendarViewState).currentDate = t from rfl]
    simp only [getPeriodStart, getPeriodEnd]
    rw [getWeekStart_eq, getWeekEnd_eq]
    refine ⟨?_, ?_, fun _ => ?_⟩ <;>
      (simp only [dayNumber, msPerDay] at * ; split_ifs <;> omega)
  | day =>
    simp only [getPeriodStart, getPeriodEnd, jsSetHours, mkTime]
    refine ⟨?_, ?_, fun _ => ?_⟩ <;>
      (simp only [dayNumber, msPerDay, msPerHour, msPerMinute, msPerSecond] at * ; omega)

/-- Counterexample to C3 as stated: in Month mode `getPeriodEnd` is the
last day of the month at local midnight, so after `goToDate` to
2024-01-31T12:00 the anchor lies strictly after the period end. -/
theorem viewstate_invariant_counterexample :
    ¬ ((applyTransition 0 (CalendarTransition.goToDate (mkDate 2024 0 31 12 0 0 0))
          ⟨0, CalendarViewMode.month⟩).currentDate
        ≤ getPeriodEnd (applyTransition 0 (CalendarTransition.goToDate
          (mkDate 2024 0 31 12 0 0 0)) ⟨0, CalendarViewMode.month⟩)) := by
  decide

/-- C3 (amended): after every transition, in every mode,
`getPeriodStart() <= anchorDate` holds, and `anchorDate <= getPeriodEnd()`
holds at day granularity (the anchor's calendar day is at most the period
end's); in Week and Day modes `anchorDate <= getPeriodEnd()` also holds for
the instants themselves.  (In Month mode the instant-level upper bound can
fail, because `getMonthEnd` returns the last day of the month at midnight.) -/
theorem viewstate_invariant_amended (now : Int) (tr : CalendarTransition)
    (s : CalendarViewState) :
    getPeriodStart (applyTransition now tr s) ≤ (applyTransition now tr s).currentDate ∧
    dayNumber (applyTransition now tr s).currentDate
      ≤ dayNumber (getPeriodEnd (applyTransition now tr s)) ∧
    ((applyTransition now tr s).viewMode = CalendarViewMode.week ∨
        (applyTransition now tr s).viewMode = CalendarViewMode.day →
      (applyTransition now tr s).currentDate ≤ getPeriodEnd (applyTransition now tr s)) :=
  viewstate_invariant_all (applyTransition now tr s)

/-- Witness for C3 (amended) after a concrete `goToPrevious` in Week
mode. -/
theorem viewstate_invariant_amended_witness :
    getPeriodStart (applyTransition 0 CalendarTransition.goToPrevious
        ⟨mkDate 2024 2 15 10 30 0 0, CalendarViewMode.week⟩)
      ≤ (applyTransition 0 CalendarTransition.goToPrevious
        ⟨mkDate 2024 2 15 10 30 0 0, CalendarViewMode.week⟩).currentDate ∧
    (applyTransition 0 CalendarTransition.goToPrevious
        ⟨mkDate 2024 2 15 10 30 0 0, CalendarViewMode.week⟩).currentDate
      ≤ getPeriodEnd (applyTransition 0 CalendarTransition.goToPrevious
        ⟨mkDate 2024 2 15 10 30 0 0, CalendarViewMode.week⟩) := by
  have h := viewstate_invariant_amended 0 CalendarTransition.goToPrevious
    ⟨mkDate 2024 2 15 10 30 0 0, CalendarViewMode.week⟩
  exact ⟨h.1, h.2.2 (Or.inl rfl)⟩

/-- One step of the date-collecting loop: advancing the day via `setDate`
is a shift by one model day. -/
theorem collectDates_step (e cur : Int) (h : cur ≤ e) :
    collectDates e cur = cur :: collectDates e (cur + msPerDay) := by
  rw [collectDates]
  rw [dif_pos h]
  rw [show jsSetDate cur (jsGetDate cur + 1) = cur + msPerDay from by
    rw [jsSetDate_self_add] ; ring]

/-- The date-collecting loop stops past the end date. -/
theorem collectDates_stop (e cur : Int) (h : ¬ cur ≤ e) : collectDates e cur = [] := by
  rw [collectDates]
  rw [dif_neg h]

/-- Closed form of the date-collecting loop: when the end date falls in the
day `n` days after the current date, the loop yields the `n + 1`
consecutive days from the current date. -/
theorem collectDates_closed (n : Nat) :
    ∀ e cur : Int, cur + (n : Int) * msPerDay ≤ e →
      e < cur + (n : Int) * msPerDay + msPerDay →
      collectDates e cur
        = (List.range (n + 1)).map (fun i : Nat => cur + (i : Int) * msPerDay) := by
  induction n with
  | zero =>
    intro e cur h1 h2
    rw [collectDates_step e cur (by simpa using h1)]
    rw [collectDates_stop e (cur + msPerDay) (by push_cast at h2 ; omega)]
    norm_num [List.range_succ]
  | succ n ih =>
    intro e cur h1 h2
    have hD : (0:Int) < msPerDay := by decide
    have hstep : cur ≤ e := by nlinarith [Int.natCast_nonneg n]
    rw [collectDates_step e cur hstep]
    rw [ih e (cur + msPerDay) (by push_cast at h1 ⊢ ; linarith) (by push_cast at h2 ⊢ ; linarith)]
    rw [List.range_succ_eq_map (n + 1)]
    simp only [List.map_cons, List.map_map, Nat.cast_zero, zero_mul, add_zero, List.cons.injEq]
    refine ⟨by simp, ?_⟩
    apply List.map_congr_left
    intro i _
    simp only [Function.comp_apply]
    push_cast
    ring

/-- Every month has at least one day: the first of a month lies strictly
before the first of the following month. -/
theorem daysFromCivil_next_pos (y m : Int) (h1 : 1 ≤ m) (h2 : m ≤ 12) :
    daysFromCivil y m 1 < daysFromCivil (y + m / 12) (m % 12 + 1) 1 := by
  by_cases hm3 : 3 ≤ m
  · by_cases hm11 : m ≤ 11
    · rw [show y + m / 12 = y from by omega, show m % 12 + 1 = m + 1 from by omega]
      rw [dfc_eval_high y (y / 400) (y % 400) m 1 (by omega) (by omega) (by omega) hm3]
      rw [dfc_eval_high y (y / 400) (y % 400) (m + 1) 1 (by omega) (by omega) (by omega)
        (by omega)]
      omega
    · have hm12 : m = 12 := by omega
      subst hm12
      rw [show y + 12 / 12 = y + 1 from by omega, show (12:Int) % 12 + 1 = 1 from by decide]
      rw [dfc_eval_high y (y / 400) (y % 400) 12 1 (by omega) (by omega) (by omega) (by decide)]
      rw [dfc_eval_low (y + 1) (y / 400) (y % 400) 1 1 (by omega) (by omega) (by omega)
        (by decide)]
      omega
  · rw [show y + m / 12 = y from by omega]
    by_cases hm1 : m = 1
    · subst hm1
      rw [show (1:Int) % 12 + 1 = 2 from by decide]
      rw [dfc_eval_low y ((y - 1) / 400) ((y - 1) % 400) 1 1 (by omega) (by omega) (by omega)
        (by decide)]
      rw [dfc_eval_low y ((y - 1) / 400) ((y - 1) % 400) 2 1 (by omega) (by omega) (by omega)
        (by decide)]
      omega
    · have hm2e : m = 2 := by omega
      subst hm2e
      rw [show (2:Int) % 12 + 1 = 3 from by decide]
      rw [dfc_eval_low y ((y - 1) / 400) ((y - 1) % 400) 2 1 (by omega) (by omega) (by omega)
        (by decide)]
      by_cases hyoe : (y - 1) % 400 ≤ 398
      · rw [dfc_eval_high y ((y - 1) / 400) ((y - 1) % 400 + 1) 3 1 (by omega) (by omega)
          (by omega) (by decide)]
        omega
      · rw [dfc_eval_high y ((y - 1) / 400 + 1) 0 3 1 (by omega) (by omega) (by omega)
          (by decide)]
        omega

/-- The number of days of month `m` (0-based) of year `y`: last day of the
month minus its first day, plus one. -/
def daysInMonth (y m : Int) : Int := mkDay y (m + 1) 0 - mkDay y m 1 + 1

set_option maxHeartbeats 1000000 in
/-- C6: for every year and every (0-based) month, the generated calendar
grid has a length divisible by 7 and contains the midnight instant of every
day of that month. -/
theorem generateMonthGrid_spec (y m : Int) (h0 : 0 ≤ m) (h1 : m ≤ 11) :
    (generateCalendarDates y m).length % 7 = 0 ∧
    ∀ d : Int, 1 ≤ d → d ≤ daysInMonth y m →
      mkDate y m d 0 0 0 0 ∈ generateCalendarDates y m := by
  have hnext := daysFromCivil_next_pos y (m + 1) (by omega) (by omega)
  have hdim : daysInMonth y m
      = daysFromCivil (y + (m + 1) / 12) ((m + 1) % 12 + 1) 1 - daysFromCivil y (m + 1) 1 := by
    simp only [daysInMonth]
    rw [mkDay_norm y m 1 h0 h1]
    simp only [mkDay]
    ring
  have htarget : ∀ d : Int, mkDate y m d 0 0 0 0
      = (daysFromCivil y (m + 1) 1 + (d - 1)) * msPerDay := by
    intro d
    simp only [mkDate, mkTime]
    rw [mkDay_norm y m d h0 h1]
    ring
  have hfd : mkDate y m 1 0 0 0 0 = daysFromCivil y (m + 1) 1 * msPerDay := by
    simp only [mkDate, mkTime]
    rw [mkDay_norm y m 1 h0 h1]
    ring
  have hld : mkDate y (m + 1) 0 0 0 0 0
      = (daysFromCivil (y + (m + 1) / 12) ((m + 1) % 12 + 1) 1 - 1) * msPerDay := by
    simp only [mkDate, mkTime, mkDay]
    ring
  simp only [generateCalendarDates]
  rw [hfd, hld, getWeekStart_eq, getWeekEnd_eq, dayNumber_of_mul, dayNumber_of_mul]
  rw [hdim]
  generalize hF : daysFromCivil y (m + 1) 1 = F at hnext htarget ⊢
  generalize hN : daysFromCivil (y + (m + 1) / 12) ((m + 1) % 12 + 1) 1 = N at hnext ⊢
  generalize hdF : (if (F + 4) % 7 = 0 then (-6:Int) else 1 - (F + 4) % 7) = dF
  generalize hdL : (if (N - 1 + 4) % 7 = 0 then (-6:Int) else 1 - (N - 1 + 4) % 7) = dL
  have hdFb : -6 ≤ dF ∧ dF ≤ 0 ∧ (F + dF + 4) % 7 = 1 := by
    rw [← hdF]
    split_ifs <;> omega
  have hdLb : -6 ≤ dL ∧ dL ≤ 0 ∧ (N - 1 + dL + 4) % 7 = 1 := by
    rw [← hdL]
    split_ifs <;> omega
  have hn : 0 ≤ N - 1 + dL + 6 - (F + dF) := by omega
  have hcast : ((N - 1 + dL + 6 - (F + dF)).toNat : Int) = N - 1 + dL + 6 - (F + dF) :=
    Int.toNat_of_nonneg hn
  have hcc := collectDates_closed (N - 1 + dL + 6 - (F + dF)).toNat
    ((N - 1 + dL + 6) * msPerDay + 86399999) ((F + dF) * msPerDay)
    (by rw [hcast] ; simp only [msPerDay] ; omega)
    (by rw [hcast] ; simp only [msPerDay] ; omega)
  rw [hcc]
  constructor
  · simp only [List.length_map, List.length_range]
    omega
  · intro d hd1 hd2
    rw [htarget d]
    simp only [List.mem_map, List.mem_range]
    refine ⟨(d - 1 - dF).toNat, by omega, ?_⟩
    simp only [msPerDay]
    omega

/-- Witness for C6 for March 2024 (0-based month 2). -/
theorem generateMonthGrid_spec_witness :
    (0:Int) ≤ 2 ∧ (2:Int) ≤ 11 ∧ (1:Int) ≤ 1 ∧ (1:Int) ≤ daysInMonth 2024 2 ∧
    mkDate 2024 2 1 0 0 0 0 ∈ generateCalendarDates 2024 2 := by
  have h := generateMonthGrid_spec 2024 2 (by decide) (by decide)
  exact ⟨by decide, by decide, by decide, by decide, h.2 1 (by decide) (by decide)⟩
